import Mathlib

/-!
# Verification of the `numeric::fixed_point` core
  (cpp/include/cudf/fixed_point/fixed_point.hpp)

Shallow embedding of the fixed-point arithmetic header.  C++ machine
integers of width `w` (int32_t / int64_t / __int128_t) are modelled as
`Int` together with explicit two's-complement wrapping `wrap w`; C++
signed division and remainder (truncation toward zero) are `Int.tdiv` and
`Int.tmod`; conversion of a signed value to an unsigned 64-bit integer is
`· % 2 ^ 64`.  Strings are modelled as `List Char`.

Each definition mirrors one function of the header; the handful of
helpers that live in the (absent) `cudf/fixed_point/temporary.hpp`
(`detail::abs`, `detail::exp10`, `detail::to_string`) are modelled from
the specification text and are marked as such.
-/

namespace Numeric

/-- Two's-complement reduction of an unbounded integer into the signed
range of a `w`-bit machine integer.  This is the semantics the header
relies on for overflowing multiplications ("release builds wrap"). -/
def wrap (w : Nat) (z : Int) : Int :=
  (z + 2 ^ (w - 1)) % 2 ^ w - 2 ^ (w - 1)

/-- `z` is representable in a signed `w`-bit integer. -/
def inRange (w : Nat) (z : Int) : Prop :=
  -(2 ^ (w - 1)) ≤ z ∧ z < 2 ^ (w - 1)

instance (w : Nat) (z : Int) : Decidable (inRange w z) := by
  unfold inRange; infer_instance

/-- `cuda::std::numeric_limits<Rep>::min()` for the `w`-bit signed type. -/
def intMin (w : Nat) : Int := -(2 ^ (w - 1))

/-- `cuda::std::numeric_limits<Rep>::max()` for the `w`-bit signed type. -/
def intMax (w : Nat) : Int := 2 ^ (w - 1) - 1

/-- `enum class Radix : int32_t { BASE_2 = 2, BASE_10 = 10 }` -/
inductive Radix
  | BASE_2
  | BASE_10
deriving DecidableEq

/-- The numeric value of a `Radix`. -/
def radixInt : Radix → Int
  | .BASE_2 => 2
  | .BASE_10 => 10

/-- `detail::large_power_of_10<Exp10>()`: recursively builds a signed
128-bit power of ten down to the literal `10^18`.  The source
`static_assert`s `Exp10 >= 18` and tests `Exp10 == 18` for the base case;
arguments below 19 therefore all land in the base arm here. -/
def large_power_of_10 : Nat → Int
  | n + 19 => large_power_of_10 (n + 18) * 10
  | _ => 1000000000000000000

/-- `detail::divide_power10_32bit<T>(value, exp10)`: dense switch with the
literal divisors `10^0 .. 10^9`, zero on any other exponent.  All
divisors are signed and truncated division never leaves the range of the
operand type, so no wrapping occurs on any arm. -/
def divide_power10_32bit (value exp10 : Int) : Int :=
  if exp10 = 0 then value
  else if exp10 = 1 then value.tdiv 10
  else if exp10 = 2 then value.tdiv 100
  else if exp10 = 3 then value.tdiv 1000
  else if exp10 = 4 then value.tdiv 10000
  else if exp10 = 5 then value.tdiv 100000
  else if exp10 = 6 then value.tdiv 1000000
  else if exp10 = 7 then value.tdiv 10000000
  else if exp10 = 8 then value.tdiv 100000000
  else if exp10 = 9 then value.tdiv 1000000000
  else 0

/-- `detail::divide_power10_64bit<T>(value, exp10)` where `wT` is the bit
width of the operand type `T`.  Arms `0..18` divide by signed literals.
Arm `19` divides by the unsigned literal `10000000000000000000ULL`
("10^19 only fits if unsigned!"): when `T` is at most 64 bits wide the
usual arithmetic conversions turn `value` into an unsigned 64-bit
integer (`% 2^64`) before the division, and the quotient is converted
back to `T`; a 128-bit `T` instead absorbs the literal and divides
signed. -/
def divide_power10_64bit (wT : Nat) (value exp10 : Int) : Int :=
  if exp10 = 0 then value
  else if exp10 = 1 then value.tdiv 10
  else if exp10 = 2 then value.tdiv 100
  else if exp10 = 3 then value.tdiv 1000
  else if exp10 = 4 then value.tdiv 10000
  else if exp10 = 5 then value.tdiv 100000
  else if exp10 = 6 then value.tdiv 1000000
  else if exp10 = 7 then value.tdiv 10000000
  else if exp10 = 8 then value.tdiv 100000000
  else if exp10 = 9 then value.tdiv 1000000000
  else if exp10 = 10 then value.tdiv 10000000000
  else if exp10 = 11 then value.tdiv 100000000000
  else if exp10 = 12 then value.tdiv 1000000000000
  else if exp10 = 13 then value.tdiv 10000000000000
  else if exp10 = 14 then value.tdiv 100000000000000
  else if exp10 = 15 then value.tdiv 1000000000000000
  else if exp10 = 16 then value.tdiv 10000000000000000
  else if exp10 = 17 then value.tdiv 100000000000000000
  else if exp10 = 18 then value.tdiv 1000000000000000000
  else if exp10 = 19 then
    if wT ≤ 64 then
      wrap wT ((value % 18446744073709551616).tdiv 10000000000000000000)
    else value.tdiv 10000000000000000000
  else 0

/-- `detail::divide_power10_128bit<T>(value, exp10)`: arms `0..18` use
signed 64-bit literals, arms `19..38` the compile-time
`large_power_of_10` constants. -/
def divide_power10_128bit (value exp10 : Int) : Int :=
  if exp10 = 0 then value
  else if exp10 = 1 then value.tdiv 10
  else if exp10 = 2 then value.tdiv 100
  else if exp10 = 3 then value.tdiv 1000
  else if exp10 = 4 then value.tdiv 10000
  else if exp10 = 5 then value.tdiv 100000
  else if exp10 = 6 then value.tdiv 1000000
  else if exp10 = 7 then value.tdiv 10000000
  else if exp10 = 8 then value.tdiv 100000000
  else if exp10 = 9 then value.tdiv 1000000000
  else if exp10 = 10 then value.tdiv 10000000000
  else if exp10 = 11 then value.tdiv 100000000000
  else if exp10 = 12 then value.tdiv 1000000000000
  else if exp10 = 13 then value.tdiv 10000000000000
  else if exp10 = 14 then value.tdiv 100000000000000
  else if exp10 = 15 then value.tdiv 1000000000000000
  else if exp10 = 16 then value.tdiv 10000000000000000
  else if exp10 = 17 then value.tdiv 100000000000000000
  else if exp10 = 18 then value.tdiv 1000000000000000000
  else if exp10 = 19 then value.tdiv (large_power_of_10 19)
  else if exp10 = 20 then value.tdiv (large_power_of_10 20)
  else if exp10 = 21 then value.tdiv (large_power_of_10 21)
  else if exp10 = 22 then value.tdiv (large_power_of_10 22)
  else if exp10 = 23 then value.tdiv (large_power_of_10 23)
  else if exp10 = 24 then value.tdiv (large_power_of_10 24)
  else if exp10 = 25 then value.tdiv (large_power_of_10 25)
  else if exp10 = 26 then value.tdiv (large_power_of_10 26)
  else if exp10 = 27 then value.tdiv (large_power_of_10 27)
  else if exp10 = 28 then value.tdiv (large_power_of_10 28)
  else if exp10 = 29 then value.tdiv (large_power_of_10 29)
  else if exp10 = 30 then value.tdiv (large_power_of_10 30)
  else if exp10 = 31 then value.tdiv (large_power_of_10 31)
  else if exp10 = 32 then value.tdiv (large_power_of_10 32)
  else if exp10 = 33 then value.tdiv (large_power_of_10 33)
  else if exp10 = 34 then value.tdiv (large_power_of_10 34)
  else if exp10 = 35 then value.tdiv (large_power_of_10 35)
  else if exp10 = 36 then value.tdiv (large_power_of_10 36)
  else if exp10 = 37 then value.tdiv (large_power_of_10 37)
  else if exp10 = 38 then value.tdiv (large_power_of_10 38)
  else 0

/-- `detail::multiply_power10_32bit<T>(value, exp10)` where `wT` is the
bit width of `T`.  Arm `0` returns the operand untouched; the other arms
multiply by a signed literal, wrapping on overflow of `T`. -/
def multiply_power10_32bit (wT : Nat) (value exp10 : Int) : Int :=
  if exp10 = 0 then value
  else if exp10 = 1 then wrap wT (value * 10)
  else if exp10 = 2 then wrap wT (value * 100)
  else if exp10 = 3 then wrap wT (value * 1000)
  else if exp10 = 4 then wrap wT (value * 10000)
  else if exp10 = 5 then wrap wT (value * 100000)
  else if exp10 = 6 then wrap wT (value * 1000000)
  else if exp10 = 7 then wrap wT (value * 10000000)
  else if exp10 = 8 then wrap wT (value * 100000000)
  else if exp10 = 9 then wrap wT (value * 1000000000)
  else 0

/-- `detail::multiply_power10_64bit<T>(value, exp10)`.  Arm `19`
multiplies by the unsigned literal `10^19`; the excursion through
unsigned 64-bit arithmetic is modular and therefore coincides with
`wrap wT (value * 10^19)` for every `wT ≤ 64` (and a 128-bit `T`
multiplies signed), so a single wrapped product is an exact model. -/
def multiply_power10_64bit (wT : Nat) (value exp10 : Int) : Int :=
  if exp10 = 0 then value
  else if exp10 = 1 then wrap wT (value * 10)
  else if exp10 = 2 then wrap wT (value * 100)
  else if exp10 = 3 then wrap wT (value * 1000)
  else if exp10 = 4 then wrap wT (value * 10000)
  else if exp10 = 5 then wrap wT (value * 100000)
  else if exp10 = 6 then wrap wT (value * 1000000)
  else if exp10 = 7 then wrap wT (value * 10000000)
  else if exp10 = 8 then wrap wT (value * 100000000)
  else if exp10 = 9 then wrap wT (value * 1000000000)
  else if exp10 = 10 then wrap wT (value * 10000000000)
  else if exp10 = 11 then wrap wT (value * 100000000000)
  else if exp10 = 12 then wrap wT (value * 1000000000000)
  else if exp10 = 13 then wrap wT (value * 10000000000000)
  else if exp10 = 14 then wrap wT (value * 100000000000000)
  else if exp10 = 15 then wrap wT (value * 1000000000000000)
  else if exp10 = 16 then wrap wT (value * 10000000000000000)
  else if exp10 = 17 then wrap wT (value * 100000000000000000)
  else if exp10 = 18 then wrap wT (value * 1000000000000000000)
  else if exp10 = 19 then wrap wT (value * 10000000000000000000)
  else 0

/-- `detail::multiply_power10_128bit<T>(value, exp10)`. -/
def multiply_power10_128bit (wT : Nat) (value exp10 : Int) : Int :=
  if exp10 = 0 then value
  else if exp10 = 1 then wrap wT (value * 10)
  else if exp10 = 2 then wrap wT (value * 100)
  else if exp10 = 3 then wrap wT (value * 1000)
  else if exp10 = 4 then wrap wT (value * 10000)
  else if exp10 = 5 then wrap wT (value * 100000)
  else if exp10 = 6 then wrap wT (value * 1000000)
  else if exp10 = 7 then wrap wT (value * 10000000)
  else if exp10 = 8 then wrap wT (value * 100000000)
  else if exp10 = 9 then wrap wT (value * 1000000000)
  else if exp10 = 10 then wrap wT (value * 10000000000)
  else if exp10 = 11 then wrap wT (value * 100000000000)
  else if exp10 = 12 then wrap wT (value * 1000000000000)
  else if exp10 = 13 then wrap wT (value * 10000000000000)
  else if exp10 = 14 then wrap wT (value * 100000000000000)
  else if exp10 = 15 then wrap wT (value * 1000000000000000)
  else if exp10 = 16 then wrap wT (value * 10000000000000000)
  else if exp10 = 17 then wrap wT (value * 100000000000000000)
  else if exp10 = 18 then wrap wT (value * 1000000000000000000)
  else if exp10 = 19 then wrap wT (value * large_power_of_10 19)
  else if exp10 = 20 then wrap wT (value * large_power_of_10 20)
  else if exp10 = 21 then wrap wT (value * large_power_of_10 21)
  else if exp10 = 22 then wrap wT (value * large_power_of_10 22)
  else if exp10 = 23 then wrap wT (value * large_power_of_10 23)
  else if exp10 = 24 then wrap wT (value * large_power_of_10 24)
  else if exp10 = 25 then wrap wT (value * large_power_of_10 25)
  else if exp10 = 26 then wrap wT (value * large_power_of_10 26)
  else if exp10 = 27 then wrap wT (value * large_power_of_10 27)
  else if exp10 = 28 then wrap wT (value * large_power_of_10 28)
  else if exp10 = 29 then wrap wT (value * large_power_of_10 29)
  else if exp10 = 30 then wrap wT (value * large_power_of_10 30)
  else if exp10 = 31 then wrap wT (value * large_power_of_10 31)
  else if exp10 = 32 then wrap wT (value * large_power_of_10 32)
  else if exp10 = 33 then wrap wT (value * large_power_of_10 33)
  else if exp10 = 34 then wrap wT (value * large_power_of_10 34)
  else if exp10 = 35 then wrap wT (value * large_power_of_10 35)
  else if exp10 = 36 then wrap wT (value * large_power_of_10 36)
  else if exp10 = 37 then wrap wT (value * large_power_of_10 37)
  else if exp10 = 38 then wrap wT (value * large_power_of_10 38)
  else 0

/-- `detail::multiply_power10<Rep>(value, exp10)`: width dispatch on
`sizeof(Rep)` (`w` bits), operand of width `wT`. -/
def multiply_power10 (w wT : Nat) (value exp10 : Int) : Int :=
  if w ≤ 32 then multiply_power10_32bit wT value exp10
  else if w ≤ 64 then multiply_power10_64bit wT value exp10
  else multiply_power10_128bit wT value exp10

/-- `detail::divide_power10<Rep>(value, exp10)`: width dispatch on
`sizeof(Rep)` (`w` bits), operand of width `wT`. -/
def divide_power10 (w wT : Nat) (value exp10 : Int) : Int :=
  if w ≤ 32 then divide_power10_32bit value exp10
  else if w ≤ 64 then divide_power10_64bit wT value exp10
  else divide_power10_128bit value exp10

/-- `detail::right_shift<Rep, Rad>(val, scale)` on an integral operand:
base 10 goes through the width-dispatched division kernels, base 2 is an
arithmetic right shift (floor division by the power of two). -/
def right_shift (w wT : Nat) (rad : Radix) (val scale : Int) : Int :=
  match rad with
  | .BASE_10 => divide_power10 w wT val scale
  | .BASE_2 => val.fdiv (2 ^ scale.toNat)

/-- `detail::left_shift<Rep, Rad>(val, scale)` on an integral operand
(`int_scale = -scale`): base 10 goes through the multiplication kernels,
base 2 is a left shift, wrapping in the operand type. -/
def left_shift (w wT : Nat) (rad : Radix) (val scale : Int) : Int :=
  match rad with
  | .BASE_10 => multiply_power10 w wT val (-scale)
  | .BASE_2 => wrap wT (val * 2 ^ (-scale).toNat)

/-- `detail::shift<Rep, Rad>(val, scale)`. -/
def shift (w wT : Nat) (rad : Radix) (val scale : Int) : Int :=
  if scale = 0 then val
  else if 0 < scale then right_shift w wT rad val scale
  else left_shift w wT rad val scale

/-- The documented inclusive exponent bound of the power-of-10 kernel
selected for a `w`-bit representation type: 9, 19 or 38. -/
def max_exp10 (w : Nat) : Int :=
  if w ≤ 32 then 9 else if w ≤ 64 then 19 else 38

/-- `numeric::fixed_point<Rep, Rad>` raw state: the stored coefficient
`_value` and scale `_scale`.  Width and radix are type parameters in the
source and appear as explicit arguments of the operations here. -/
structure fixed_point where
  value : Int
  scale : Int
deriving DecidableEq

/-- The shifting constructor `fixed_point(T const& value, scale_type
const& scale)`: casts `value` to `Rep` and stores
`detail::shift<Rep, Rad>(value, scale)`. -/
def mk_fixed_point (w : Nat) (rad : Radix) (value scale : Int) : fixed_point :=
  ⟨shift w w rad (wrap w value) scale, scale⟩

/-- `fixed_point::rescaled(scale)`. -/
def rescaled (w : Nat) (rad : Radix) (x : fixed_point) (scale : Int) : fixed_point :=
  if scale = x.scale then x
  else ⟨shift w w rad x.value (scale - x.scale), scale⟩

/-- `operator+`: rescale both operands to the smaller scale, add the
coefficients (wrapping in `Rep`). -/
def fp_add (w : Nat) (rad : Radix) (lhs rhs : fixed_point) : fixed_point :=
  let scale := min lhs.scale rhs.scale
  ⟨wrap w ((rescaled w rad lhs scale).value + (rescaled w rad rhs scale).value), scale⟩

/-- `operator-`. -/
def fp_sub (w : Nat) (rad : Radix) (lhs rhs : fixed_point) : fixed_point :=
  let scale := min lhs.scale rhs.scale
  ⟨wrap w ((rescaled w rad lhs scale).value - (rescaled w rad rhs scale).value), scale⟩

/-- `operator*`: coefficients multiply (wrapping), scales add. -/
def fp_mul (w : Nat) (rad : Radix) (lhs rhs : fixed_point) : fixed_point :=
  ⟨wrap w (lhs.value * rhs.value), lhs.scale + rhs.scale⟩

/-- `operator/`: truncated coefficient division, scales subtract. -/
def fp_div (w : Nat) (rad : Radix) (lhs rhs : fixed_point) : fixed_point :=
  ⟨wrap w (lhs.value.tdiv rhs.value), lhs.scale - rhs.scale⟩

/-- `operator%`: rescale to the smaller scale, truncated remainder. -/
def fp_mod (w : Nat) (rad : Radix) (lhs rhs : fixed_point) : fixed_point :=
  let scale := min lhs.scale rhs.scale
  ⟨((rescaled w rad lhs scale).value).tmod ((rescaled w rad rhs scale).value), scale⟩

/-- `operator==`. -/
def fp_eq (w : Nat) (rad : Radix) (lhs rhs : fixed_point) : Bool :=
  let scale := min lhs.scale rhs.scale
  decide ((rescaled w rad lhs scale).value = (rescaled w rad rhs scale).value)

/-- `operator!=`. -/
def fp_ne (w : Nat) (rad : Radix) (lhs rhs : fixed_point) : Bool :=
  let scale := min lhs.scale rhs.scale
  decide (¬ (rescaled w rad lhs scale).value = (rescaled w rad rhs scale).value)

/-- `operator<=`. -/
def fp_le (w : Nat) (rad : Radix) (lhs rhs : fixed_point) : Bool :=
  let scale := min lhs.scale rhs.scale
  decide ((rescaled w rad lhs scale).value ≤ (rescaled w rad rhs scale).value)

/-- `operator>=`. -/
def fp_ge (w : Nat) (rad : Radix) (lhs rhs : fixed_point) : Bool :=
  let scale := min lhs.scale rhs.scale
  decide ((rescaled w rad rhs scale).value ≤ (rescaled w rad lhs scale).value)

/-- `operator<`. -/
def fp_lt (w : Nat) (rad : Radix) (lhs rhs : fixed_point) : Bool :=
  let scale := min lhs.scale rhs.scale
  decide ((rescaled w rad lhs scale).value < (rescaled w rad rhs scale).value)

/-- `operator>`. -/
def fp_gt (w : Nat) (rad : Radix) (lhs rhs : fixed_point) : Bool :=
  let scale := min lhs.scale rhs.scale
  decide ((rescaled w rad rhs scale).value < (rescaled w rad lhs scale).value)

/-- Pre-increment `operator++`:
`*this + fixed_point<Rep, Rad>{1, scale_type{_scale}}`. -/
def fp_preincrement (w : Nat) (rad : Radix) (x : fixed_point) : fixed_point :=
  fp_add w rad x (mk_fixed_point w rad 1 x.scale)

/-- The explicit conversion `operator U()`: widen the coefficient to the
common type of `U` and `Rep` (width `max wU w`), shift by `-_scale`
through the kernels dispatched on `Rep`, then cast to `U`. -/
def to_integer (w : Nat) (rad : Radix) (x : fixed_point) (wU : Nat) : Int :=
  wrap wU (shift w (max wU w) rad x.value (-x.scale))

/-- The rational number denoted by a stored `fixed_point`:
`coefficient * Radix ^ scale`. -/
def represented_value (rad : Radix) (x : fixed_point) : ℚ :=
  (x.value : ℚ) * (radixInt rad : ℚ) ^ x.scale

/-- Decimal digit character. -/
def digit_char (d : Nat) : Char := Char.ofNat (48 + d)

/-- Fuel-driven most-significant-first decimal digit expansion. -/
def natDigitsAux : Nat → Nat → List Char
  | 0, _ => []
  | fuel + 1, n =>
    if n < 10 then [digit_char n]
    else natDigitsAux fuel (n / 10) ++ [digit_char (n % 10)]

/-- Decimal rendering of a natural number. -/
def natDigits (n : Nat) : List Char := natDigitsAux (n + 1) n

/-- Modelled from the spec: `detail::to_string` (in the absent header
`cudf/fixed_point/temporary.hpp`) is the decimal rendering of an
integer, a leading minus sign for negative input. -/
def int_to_string (i : Int) : List Char :=
  if i < 0 then Char.ofNat 45 :: natDigits i.natAbs else natDigits i.natAbs

/-- Modelled from the spec: `detail::abs` (absent header), the absolute
value `av = |coefficient|`. -/
def int_abs (i : Int) : Int := |i|

/-- Modelled from the spec: `detail::exp10<Rep>(e)` (absent header),
`n = 10^e`. -/
def exp10_int (e : Nat) : Int := 10 ^ e

/-- `fixed_point::operator std::string()`: for a negative scale, sign,
integer part, point, and the fractional part left-padded with zeros; for
a nonnegative scale, the coefficient followed by `scale` zeros. -/
def to_string_fp (x : fixed_point) : List Char :=
  if x.scale < 0 then
    let av := int_abs x.value
    let n := exp10_int (-x.scale).toNat
    let f := av.tmod n
    let num_zeros : Int := max 0 ((-x.scale) - (int_to_string f).length)
    let zeros := List.replicate num_zeros.toNat (Char.ofNat 48)
    let sign := if x.value < 0 then [Char.ofNat 45] else []
    sign ++ int_to_string (av.tdiv n) ++ [Char.ofNat 46] ++ zeros ++
      int_to_string (av.tmod n)
  else
    int_to_string x.value ++ List.replicate x.scale.toNat (Char.ofNat 48)

/-- `numeric::addition_overflow<Rep>(lhs, rhs)`. -/
def addition_overflow (w : Nat) (lhs rhs : Int) : Bool :=
  if 0 < rhs then decide (intMax w - rhs < lhs) else decide (lhs < intMin w - rhs)

/-- `numeric::subtraction_overflow<Rep>(lhs, rhs)`. -/
def subtraction_overflow (w : Nat) (lhs rhs : Int) : Bool :=
  if 0 < rhs then decide (lhs < intMin w + rhs) else decide (intMax w + rhs < lhs)

/-- `numeric::division_overflow<Rep>(lhs, rhs)`. -/
def division_overflow (w : Nat) (lhs rhs : Int) : Bool :=
  decide (lhs = intMin w ∧ rhs = -1)

/-- `numeric::multiplication_overflow<Rep>(lhs, rhs)`. -/
def multiplication_overflow (w : Nat) (lhs rhs : Int) : Bool :=
  if 0 < rhs then
    decide ((intMax w).tdiv rhs < lhs) || decide (lhs < (intMin w).tdiv rhs)
  else if rhs < -1 then
    decide ((intMin w).tdiv rhs < lhs) || decide (lhs < (intMax w).tdiv rhs)
  else decide (rhs = -1 ∧ lhs = intMin w)

end Numeric

namespace Numeric

/-! ## Basic facts about wrapping and the power kernels -/

theorem wrap_eq_self {w : Nat} {z : Int} (hw : 1 ≤ w) (h : inRange w z) :
    wrap w z = z := by
  obtain ⟨h1, h2⟩ := h
  have h2w : (2 : Int) ^ w = 2 ^ (w - 1) * 2 := by
    rw [← pow_succ]; congr 1; omega
  unfold wrap
  rw [Int.emod_eq_of_lt (by omega) (by omega)]
  omega

theorem wrap_zero {w : Nat} (hw : 1 ≤ w) : wrap w 0 = 0 := by
  have hp : (0 : Int) < 2 ^ (w - 1) := by positivity
  exact wrap_eq_self hw ⟨by omega, hp⟩

theorem radixInt_pos (rad : Radix) : 0 < radixInt rad := by
  cases rad <;> norm_num [radixInt]

theorem large_power_eq_pow (k : Nat) (h : 18 ≤ k) : large_power_of_10 k = 10 ^ k := by
  obtain ⟨m, rfl⟩ : ∃ m, k = m + 18 := ⟨k - 18, by omega⟩
  induction m with
  | zero => decide
  | succ n ih =>
    have h1 : large_power_of_10 (n + 1 + 18) = large_power_of_10 (n + 18) * 10 := rfl
    rw [h1, ih (by omega)]
    ring

theorem mult32_eq {wT : Nat} {v e : Int} (h1 : 1 ≤ e) (h2 : e ≤ 9) :
    multiply_power10_32bit wT v e = wrap wT (v * 10 ^ e.toNat) := by
  interval_cases e <;> rfl

theorem mult64_eq {wT : Nat} {v e : Int} (h1 : 1 ≤ e) (h2 : e ≤ 19) :
    multiply_power10_64bit wT v e = wrap wT (v * 10 ^ e.toNat) := by
  interval_cases e <;> rfl

theorem mult128_eq {wT : Nat} {v e : Int} (h1 : 1 ≤ e) (h2 : e ≤ 38) :
    multiply_power10_128bit wT v e = wrap wT (v * 10 ^ e.toNat) := by
  interval_cases e <;> rfl

theorem div32_tdiv {v e : Int} (h1 : 0 ≤ e) (h2 : e ≤ 9) :
    divide_power10_32bit v e = v.tdiv (10 ^ e.toNat) := by
  interval_cases e <;> first | rfl | simp [divide_power10_32bit]

theorem div64_tdiv {wT : Nat} {v e : Int} (h1 : 0 ≤ e) (h2 : e ≤ 18) :
    divide_power10_64bit wT v e = v.tdiv (10 ^ e.toNat) := by
  interval_cases e <;> first | rfl | simp [divide_power10_64bit]

theorem div128_tdiv {v e : Int} (h1 : 0 ≤ e) (h2 : e ≤ 38) :
    divide_power10_128bit v e = v.tdiv (10 ^ e.toNat) := by
  interval_cases e <;> first | rfl | simp [divide_power10_128bit]

theorem div32_oor {v e : Int} (h : e < 0 ∨ 9 < e) : divide_power10_32bit v e = 0 := by
  unfold divide_power10_32bit
  repeat' split
  all_goals omega

theorem div64_oor {wT : Nat} {v e : Int} (h : e < 0 ∨ 19 < e) :
    divide_power10_64bit wT v e = 0 := by
  unfold divide_power10_64bit
  repeat' split
  all_goals omega

theorem div128_oor {v e : Int} (h : e < 0 ∨ 38 < e) : divide_power10_128bit v e = 0 := by
  unfold divide_power10_128bit
  repeat' split
  all_goals omega

theorem mult32_oor {wT : Nat} {v e : Int} (h : e < 0 ∨ 9 < e) :
    multiply_power10_32bit wT v e = 0 := by
  unfold multiply_power10_32bit
  repeat' split
  all_goals omega

theorem mult64_oor {wT : Nat} {v e : Int} (h : e < 0 ∨ 19 < e) :
    multiply_power10_64bit wT v e = 0 := by
  unfold multiply_power10_64bit
  repeat' split
  all_goals omega

theorem mult128_oor {wT : Nat} {v e : Int} (h : e < 0 ∨ 38 < e) :
    multiply_power10_128bit wT v e = 0 := by
  unfold multiply_power10_128bit
  repeat' split
  all_goals omega

end Numeric

namespace Numeric

/-! ## Dispatch-level kernel lemmas -/

theorem multiply_power10_eq {w wT : Nat} {v e : Int} (h1 : 1 ≤ e)
    (h2 : e ≤ max_exp10 w) :
    multiply_power10 w wT v e = wrap wT (v * 10 ^ e.toNat) := by
  unfold multiply_power10
  unfold max_exp10 at h2
  by_cases h32 : w ≤ 32
  · rw [if_pos h32]; rw [if_pos h32] at h2; exact mult32_eq h1 h2
  · rw [if_neg h32]; rw [if_neg h32] at h2
    by_cases h64 : w ≤ 64
    · rw [if_pos h64]; rw [if_pos h64] at h2; exact mult64_eq h1 h2
    · rw [if_neg h64]; rw [if_neg h64] at h2; exact mult128_eq h1 h2

theorem multiply_power10_oor {w wT : Nat} {v e : Int}
    (h : e < 0 ∨ max_exp10 w < e) : multiply_power10 w wT v e = 0 := by
  unfold multiply_power10
  unfold max_exp10 at h
  by_cases h32 : w ≤ 32
  · rw [if_pos h32]; rw [if_pos h32] at h; exact mult32_oor h
  · rw [if_neg h32]; rw [if_neg h32] at h
    by_cases h64 : w ≤ 64
    · rw [if_pos h64]; rw [if_pos h64] at h; exact mult64_oor h
    · rw [if_neg h64]; rw [if_neg h64] at h; exact mult128_oor h

theorem divide_power10_oor {w wT : Nat} {v e : Int}
    (h : e < 0 ∨ max_exp10 w < e) : divide_power10 w wT v e = 0 := by
  unfold divide_power10
  unfold max_exp10 at h
  by_cases h32 : w ≤ 32
  · rw [if_pos h32]; rw [if_pos h32] at h; exact div32_oor h
  · rw [if_neg h32]; rw [if_neg h32] at h
    by_cases h64 : w ≤ 64
    · rw [if_pos h64]; rw [if_pos h64] at h; exact div64_oor h
    · rw [if_neg h64]; rw [if_neg h64] at h; exact div128_oor h

/-- Dividing an exact product `c * 10^e` back down through the kernel
dispatched for width `w` recovers `c`, provided the product is in the
range of the `w`-bit representation.  (The only delicate arm is the
unsigned `10^19` divisor of the 64-bit kernel, which is reached with an
in-range operand only when `c = 0`.) -/
theorem divide_power10_exact {w : Nat} {c e : Int} (hw : 1 ≤ w) (h0 : 0 ≤ e)
    (h2 : e ≤ max_exp10 w) (hr : inRange w (c * 10 ^ e.toNat)) :
    divide_power10 w w (c * 10 ^ e.toNat) e = c := by
  have hp : (10 : Int) ^ e.toNat ≠ 0 := by positivity
  unfold divide_power10
  unfold max_exp10 at h2
  by_cases h32 : w ≤ 32
  · rw [if_pos h32]; rw [if_pos h32] at h2
    rw [div32_tdiv h0 h2, Int.mul_tdiv_cancel _ hp]
  · rw [if_neg h32]; rw [if_neg h32] at h2
    by_cases h64 : w ≤ 64
    · rw [if_pos h64]; rw [if_pos h64] at h2
      by_cases h18 : e ≤ 18
      · rw [div64_tdiv h0 h18, Int.mul_tdiv_cancel _ hp]
      · have he : e = 19 := by omega
        subst he
        have hc : c = 0 := by
          obtain ⟨hr1, hr2⟩ := hr
          have hple : (2 : Int) ^ (w - 1) ≤ 2 ^ 63 :=
            pow_le_pow_right₀ (by norm_num) (by omega)
          have h19 : (10 : Int) ^ (19 : Int).toNat = 10 ^ 19 := rfl
          rw [h19] at hr1 hr2
          rcases lt_trichotomy c 0 with hc | hc | hc
          · nlinarith [hr1, hple]
          · exact hc
          · nlinarith [hr2, hple]
        subst hc
        norm_num [divide_power10_64bit]
        exact fun _ => wrap_zero hw
    · rw [if_neg h64]; rw [if_neg h64] at h2
      rw [div128_tdiv h0 h2, Int.mul_tdiv_cancel _ hp]

/-- `divide_power10` of the coefficient `1` by any positive exponent is
zero: in range it truncates `1 / 10^e` to zero, out of range it hits the
zero default. -/
theorem divide_power10_one {w wT : Nat} {e : Int} (hwT : 1 ≤ wT) (h1 : 1 ≤ e) :
    divide_power10 w wT 1 e = 0 := by
  have hlt : ∀ k : Nat, 1 ≤ k → (1 : Int) < 10 ^ k := fun k hk => by
    calc (1 : Int) < 10 ^ 1 := by norm_num
    _ ≤ 10 ^ k := pow_le_pow_right₀ (by norm_num) hk
  have htd : ∀ k : Nat, 1 ≤ k → (1 : Int).tdiv (10 ^ k) = 0 := fun k hk =>
    Int.tdiv_eq_zero_of_lt (by norm_num) (hlt k hk)
  unfold divide_power10
  by_cases h32 : w ≤ 32
  · rw [if_pos h32]
    by_cases h9 : e ≤ 9
    · rw [div32_tdiv (by omega) h9]; exact htd _ (by omega)
    · exact div32_oor (by omega)
  · rw [if_neg h32]
    by_cases h64 : w ≤ 64
    · rw [if_pos h64]
      by_cases h18 : e ≤ 18
      · rw [div64_tdiv (by omega) h18]; exact htd _ (by omega)
      · by_cases h19 : e = 19
        · subst h19
          norm_num [divide_power10_64bit]
          split
          · rw [Int.tdiv_eq_zero_of_lt (by norm_num) (by norm_num), wrap_zero hwT]
          · exact Int.tdiv_eq_zero_of_lt (by norm_num) (by norm_num)
        · exact div64_oor (by omega)
    · rw [if_neg h64]
      by_cases h38 : e ≤ 38
      · rw [div128_tdiv (by omega) h38]; exact htd _ (by omega)
      · exact div128_oor (by omega)

end Numeric

namespace Numeric

/-! ## Rescaling to a smaller (finer) scale is an exact multiplication -/

/-- Rescaling down to `s ≤ x.scale` multiplies the coefficient by
`Radix ^ (x.scale - s)`, exactly, whenever the scale difference is within
the kernel range and the product does not overflow. -/
theorem rescaled_down {w : Nat} {rad : Radix} {x : fixed_point} {s : Int}
    (hw : 1 ≤ w) (hs : s ≤ x.scale) (hd : x.scale - s ≤ max_exp10 w)
    (hr : inRange w (x.value * radixInt rad ^ (x.scale - s).toNat)) :
    rescaled w rad x s = ⟨x.value * radixInt rad ^ (x.scale - s).toNat, s⟩ := by
  unfold rescaled
  by_cases hss : s = x.scale
  · rw [if_pos hss]
    subst hss
    simp
  · rw [if_neg hss]
    have hd1 : 1 ≤ x.scale - s := by omega
    unfold shift
    rw [if_neg (by omega), if_neg (by omega)]
    cases rad with
    | BASE_10 =>
      show fixed_point.mk (multiply_power10 w w x.value (-(s - x.scale))) s = _
      have he : -(s - x.scale) = x.scale - s := by ring
      rw [he, multiply_power10_eq hd1 hd]
      rw [wrap_eq_self hw (by exact hr)]
      rfl
    | BASE_2 =>
      show fixed_point.mk (wrap w (x.value * 2 ^ (-(s - x.scale)).toNat)) s = _
      have he : -(s - x.scale) = x.scale - s := by ring
      rw [he, wrap_eq_self hw (by exact hr)]
      rfl

/-- The rescaled-down raw state denotes the same rational number. -/
theorem represented_rescale {rad : Radix} {x : fixed_point} {s : Int}
    (hs : s ≤ x.scale) :
    represented_value rad ⟨x.value * radixInt rad ^ (x.scale - s).toNat, s⟩ =
      represented_value rad x := by
  have hr0 : (radixInt rad : ℚ) ≠ 0 := by cases rad <;> norm_num [radixInt]
  unfold represented_value
  push_cast
  rw [mul_assoc, ← zpow_natCast ((radixInt rad : ℚ)), ← zpow_add₀ hr0]
  congr 2
  omega

end Numeric

namespace Numeric

/-! ## Claim theorems -/

/-- C1: the divide kernels are claimed to truncate toward zero for every
in-range exponent, "including exp10 = 19 in the 64-bit kernels" for
negative values.  At the failing input `value = -1`, `exp10 = 19` (64-bit
operand), the 64-bit kernel returns `1`, whereas truncation toward zero
of `-1 / 10^19` is `0`: the arm divides through the unsigned literal
`10^19`, converting the negative operand to `2^64 - 1` first. -/
theorem c1_divide64_exp19_negative_eval :
    divide_power10_64bit 64 (-1) 19 = 1 ∧ (-1 : Int).tdiv (10 ^ 19) = 0 := by
  decide

/-- C2 (counterexample): the claim says `FixedPoint<i32,10>(150, scale
= -2)` stores coefficient `150`; the constructor in fact left-shifts and
stores `15000`. -/
theorem c2_stored_coefficient_counterexample :
    ¬ (mk_fixed_point 32 .BASE_10 150 (-2)).value = 150 := by
  decide

/-- C2 (amended): construction stores `shift<R,B>(R(value), scale)`;
concretely `(150, scale = -2)` stores coefficient `15000` and scale `-2`
(representing `150.00`), and `(150, scale = +2)` stores coefficient `1`
(`150 / 100`) and scale `+2` (representing `100`). -/
theorem c2_construction_shifts :
    mk_fixed_point 32 .BASE_10 150 (-2) = ⟨15000, -2⟩ ∧
    represented_value .BASE_10 (mk_fixed_point 32 .BASE_10 150 (-2)) = 150 ∧
    mk_fixed_point 32 .BASE_10 150 2 = ⟨1, 2⟩ ∧
    represented_value .BASE_10 (mk_fixed_point 32 .BASE_10 150 2) = 100 := by
  refine ⟨by decide, ?_, by decide, ?_⟩
  · rw [show mk_fixed_point 32 .BASE_10 150 (-2) = ⟨15000, -2⟩ from by decide]
    norm_num [represented_value, radixInt]
  · rw [show mk_fixed_point 32 .BASE_10 150 2 = ⟨1, 2⟩ from by decide]
    norm_num [represented_value, radixInt]

/-- C4 (counterexample): the claim says
`FixedPoint(1001, scale=-3).to_string() == "1.001"`; the shifting
constructor stores coefficient `1001000`, which formats as
`"1001.000"`. -/
theorem c4_to_string_counterexample :
    ¬ to_string_fp (mk_fixed_point 32 .BASE_10 1001 (-3)) =
      ['1', '.', '0', '0', '1'] := by
  decide

/-- C4 (amended): for base 10 with `R = i32`, the composition of scaled
construction and formatting satisfies
`FixedPoint(1001, scale=-3).to_string() == "1001.000"` (the raw state
`{coef=1001, scale=-3}`, reachable through `scaled_integer`, is the one
rendering as `"1.001"`). -/
theorem c4_construct_then_format :
    to_string_fp (mk_fixed_point 32 .BASE_10 1001 (-3)) =
      ['1', '0', '0', '1', '.', '0', '0', '0'] ∧
    to_string_fp ⟨1001, -3⟩ = ['1', '.', '0', '0', '1'] := by
  constructor <;> decide

/-- C8: for every operand and every exponent outside the documented
inclusive range of the chosen width kernel (including all negative
exponents), each divide and multiply kernel returns the zero sentinel. -/
theorem c8_out_of_range_exponent_zero (wT : Nat) (v e : Int) :
    (e < 0 ∨ 9 < e →
      divide_power10_32bit v e = 0 ∧ multiply_power10_32bit wT v e = 0) ∧
    (e < 0 ∨ 19 < e →
      divide_power10_64bit wT v e = 0 ∧ multiply_power10_64bit wT v e = 0) ∧
    (e < 0 ∨ 38 < e →
      divide_power10_128bit v e = 0 ∧ multiply_power10_128bit wT v e = 0) :=
  ⟨fun h => ⟨div32_oor h, mult32_oor h⟩,
   fun h => ⟨div64_oor h, mult64_oor h⟩,
   fun h => ⟨div128_oor h, mult128_oor h⟩⟩

/-- C8 (witness): the 32-bit kernels at the negative exponent `-1` and
the 64-bit kernels at exponent `20`. -/
theorem c8_out_of_range_exponent_zero_witness :
    (divide_power10_32bit 7 (-1) = 0 ∧ multiply_power10_32bit 32 7 (-1) = 0) ∧
    (divide_power10_64bit 64 7 20 = 0 ∧ multiply_power10_64bit 64 7 20 = 0) :=
  ⟨(c8_out_of_range_exponent_zero 32 7 (-1)).1 (Or.inl (by norm_num)),
   (c8_out_of_range_exponent_zero 64 7 20).2.1 (Or.inr (by norm_num))⟩

end Numeric

namespace Numeric

/-- C9: for base 10 and a scale of at least 1, pre-increment is a no-op:
the operand `fixed_point(1, scale)` constructs with coefficient
`1 / 10^scale = 0`, so zero is added and both coefficient and scale are
unchanged. -/
theorem c9_preincrement_noop (w : Nat) (x : fixed_point) (hw : 2 ≤ w)
    (hs : 1 ≤ x.scale) (hx : inRange w x.value) :
    fp_preincrement w .BASE_10 x = x ∧
    (mk_fixed_point w .BASE_10 1 x.scale).value = 0 := by
  have hw1 : 1 ≤ w := by omega
  have h2p : (2 : Int) ≤ 2 ^ (w - 1) := by
    calc (2 : Int) = 2 ^ 1 := by norm_num
    _ ≤ 2 ^ (w - 1) := pow_le_pow_right₀ (by norm_num) (by omega)
  have hone : wrap w 1 = 1 := wrap_eq_self hw1 ⟨by omega, by omega⟩
  have hmk : mk_fixed_point w .BASE_10 1 x.scale = ⟨0, x.scale⟩ := by
    unfold mk_fixed_point
    rw [hone]
    unfold shift
    rw [if_neg (by omega), if_pos (by omega)]
    show fixed_point.mk (divide_power10 w w 1 x.scale) x.scale = _
    rw [divide_power10_one hw1 hs]
  refine ⟨?_, by rw [hmk]⟩
  unfold fp_preincrement
  rw [hmk]
  simp only [fp_add, min_self]
  unfold rescaled
  rw [if_pos rfl, if_pos rfl]
  show fixed_point.mk (wrap w (x.value + 0)) x.scale = x
  rw [add_zero, wrap_eq_self hw1 hx]

/-- C9 (witness): at `w = 32`, `x = {coef 5, scale 2}` pre-increment
leaves the value untouched. -/
theorem c9_preincrement_noop_witness :
    fp_preincrement 32 .BASE_10 ⟨5, 2⟩ = ⟨5, 2⟩ ∧
    (mk_fixed_point 32 .BASE_10 1 2).value = 0 :=
  c9_preincrement_noop 32 ⟨5, 2⟩ (by norm_num) (by norm_num) (by decide)

/-- C10: when the scale magnitude exceeds the power-kernel range of the
representation width `w`, explicit conversion to an integer type of any
width `wU` returns 0: the shift dispatches the power-of-10 kernel on
`w`, not on the width of the widened common type, and the out-of-range
exponent hits the zero sentinel. -/
theorem c10_conversion_out_of_range_zero (w wU : Nat) (x : fixed_point)
    (hwU : 1 ≤ wU) (hs : max_exp10 w < |x.scale|) :
    to_integer w .BASE_10 x wU = 0 := by
  have h9 : (0 : Int) ≤ max_exp10 w := by
    unfold max_exp10
    repeat' split
    all_goals norm_num
  have hs' : max_exp10 w < x.scale ∨ x.scale < -(max_exp10 w) := by
    rcases lt_abs.mp hs with h1 | h1
    · exact Or.inl h1
    · exact Or.inr (by omega)
  unfold to_integer
  unfold shift
  rw [if_neg (by omega)]
  by_cases hpos : 0 < -x.scale
  · rw [if_pos hpos]
    show wrap wU (divide_power10 w (max wU w) x.value (-x.scale)) = 0
    rw [divide_power10_oor (Or.inr (by omega)), wrap_zero hwU]
  · rw [if_neg hpos]
    show wrap wU (multiply_power10 w (max wU w) x.value (-(-x.scale))) = 0
    rw [show -(-x.scale) = x.scale from by ring,
      multiply_power10_oor (Or.inr (by omega)), wrap_zero hwU]

/-- C10 (witness): a 32-bit fixed point with scale 10 (representing
`5 * 10^10`, which fits in 64 bits) converts to a 64-bit integer as 0. -/
theorem c10_conversion_out_of_range_zero_witness :
    to_integer 32 .BASE_10 ⟨5, 10⟩ 64 = 0 :=
  c10_conversion_out_of_range_zero 32 64 ⟨5, 10⟩ (by norm_num) (by decide)

/-- C7: rescaling down to a finer scale `s' ≤ x.scale` and back up is
lossless when the coefficient shift stays in range and both scale
differences are within the power-kernel range; and rescaling to the own
scale is the bitwise identity. -/
theorem c7_rescale_roundtrip (w : Nat) (rad : Radix) (x : fixed_point)
    (s' : Int) (hw : 1 ≤ w) (hs : s' ≤ x.scale)
    (hd : x.scale - s' ≤ max_exp10 w)
    (hr : inRange w (x.value * radixInt rad ^ (x.scale - s').toNat)) :
    rescaled w rad (rescaled w rad x s') x.scale = x ∧
    rescaled w rad x x.scale = x := by
  have hid : rescaled w rad x x.scale = x := by
    unfold rescaled
    rw [if_pos rfl]
  refine ⟨?_, hid⟩
  rw [rescaled_down hw hs hd hr]
  by_cases hss : s' = x.scale
  · subst hss
    unfold rescaled
    rw [if_pos rfl]
    simp
  · unfold rescaled
    rw [if_neg (by simpa using fun h => hss h.symm)]
    unfold shift
    rw [if_neg (by simp; omega), if_pos (by simp; omega)]
    cases rad with
    | BASE_10 =>
      show fixed_point.mk
        (divide_power10 w w (x.value * 10 ^ (x.scale - s').toNat)
          (x.scale - s')) x.scale = x
      rw [divide_power10_exact hw (by omega) hd (by exact hr)]
    | BASE_2 =>
      show fixed_point.mk
        ((x.value * 2 ^ (x.scale - s').toNat).fdiv
          (2 ^ (x.scale - s').toNat)) x.scale = x
      rw [Int.mul_fdiv_cancel _ (by positivity)]

/-- C7 (witness): `{coef 71, scale 1}` at `w = 32` rescaled down to
scale `-2` and back is unchanged. -/
theorem c7_rescale_roundtrip_witness :
    rescaled 32 .BASE_10 (rescaled 32 .BASE_10 ⟨71, 1⟩ (-2)) 1 = ⟨71, 1⟩ ∧
    rescaled 32 .BASE_10 ⟨71, 1⟩ 1 = ⟨71, 1⟩ :=
  c7_rescale_roundtrip 32 .BASE_10 ⟨71, 1⟩ (-2) (by norm_num) (by norm_num)
    (by decide) (by decide)

end Numeric

namespace Numeric

/-- C5: with `s* = min(lhs.scale, rhs.scale)`, whenever rescaling the
operands down to `s*` stays within the kernel range and in range of the
representation, and the coefficient sum/difference does not overflow:
addition, subtraction and modulo produce results carrying scale `s*`
whose represented values are the exact rational sum, difference, and
truncated remainder; and all six comparisons decide the corresponding
comparison of represented values. -/
theorem c5_rescale_then_operate (w : Nat) (rad : Radix) (a b : fixed_point)
    (hw : 1 ≤ w)
    (hda : a.scale - min a.scale b.scale ≤ max_exp10 w)
    (hdb : b.scale - min a.scale b.scale ≤ max_exp10 w)
    (hra : inRange w
      (a.value * radixInt rad ^ (a.scale - min a.scale b.scale).toNat))
    (hrb : inRange w
      (b.value * radixInt rad ^ (b.scale - min a.scale b.scale).toNat))
    (hsum : inRange w
      (a.value * radixInt rad ^ (a.scale - min a.scale b.scale).toNat +
        b.value * radixInt rad ^ (b.scale - min a.scale b.scale).toNat))
    (hdiff : inRange w
      (a.value * radixInt rad ^ (a.scale - min a.scale b.scale).toNat -
        b.value * radixInt rad ^ (b.scale - min a.scale b.scale).toNat)) :
    ((fp_add w rad a b).scale = min a.scale b.scale ∧
      represented_value rad (fp_add w rad a b) =
        represented_value rad a + represented_value rad b) ∧
    ((fp_sub w rad a b).scale = min a.scale b.scale ∧
      represented_value rad (fp_sub w rad a b) =
        represented_value rad a - represented_value rad b) ∧
    ((fp_mod w rad a b).scale = min a.scale b.scale ∧
      represented_value rad (fp_mod w rad a b) =
        represented_value rad a -
          (((a.value * radixInt rad ^ (a.scale - min a.scale b.scale).toNat).tdiv
              (b.value * radixInt rad ^ (b.scale - min a.scale b.scale).toNat) : Int) : ℚ) *
            represented_value rad b) ∧
    (fp_eq w rad a b = true ↔
      represented_value rad a = represented_value rad b) ∧
    (fp_ne w rad a b = true ↔
      ¬ represented_value rad a = represented_value rad b) ∧
    (fp_lt w rad a b = true ↔
      represented_value rad a < represented_value rad b) ∧
    (fp_le w rad a b = true ↔
      represented_value rad a ≤ represented_value rad b) ∧
    (fp_gt w rad a b = true ↔
      represented_value rad b < represented_value rad a) ∧
    (fp_ge w rad a b = true ↔
      represented_value rad b ≤ represented_value rad a) := by
  set s := min a.scale b.scale with hsdef
  set A := a.value * radixInt rad ^ (a.scale - s).toNat with hAdef
  set B := b.value * radixInt rad ^ (b.scale - s).toNat with hBdef
  have hA : rescaled w rad a s = ⟨A, s⟩ :=
    rescaled_down hw (min_le_left _ _) hda hra
  have hB : rescaled w rad b s = ⟨B, s⟩ :=
    rescaled_down hw (min_le_right _ _) hdb hrb
  have ha' : represented_value rad a = (A : ℚ) * (radixInt rad : ℚ) ^ s :=
    (represented_rescale (min_le_left a.scale b.scale)).symm
  have hb' : represented_value rad b = (B : ℚ) * (radixInt rad : ℚ) ^ s :=
    (represented_rescale (min_le_right a.scale b.scale)).symm
  have hzpos : (0 : ℚ) < (radixInt rad : ℚ) ^ s :=
    zpow_pos (by exact_mod_cast radixInt_pos rad) s
  have hzne : ((radixInt rad : ℚ) ^ s) ≠ 0 := ne_of_gt hzpos
  refine ⟨⟨rfl, ?_⟩, ⟨rfl, ?_⟩, ⟨rfl, ?_⟩, ?_, ?_, ?_, ?_, ?_, ?_⟩
  · simp only [fp_add, hA, hB]
    show ((wrap w (A + B) : Int) : ℚ) * (radixInt rad : ℚ) ^ s = _
    rw [wrap_eq_self hw hsum, ha', hb']
    push_cast
    ring
  · simp only [fp_sub, hA, hB]
    show ((wrap w (A - B) : Int) : ℚ) * (radixInt rad : ℚ) ^ s = _
    rw [wrap_eq_self hw hdiff, ha', hb']
    push_cast
    ring
  · simp only [fp_mod, hA, hB]
    show ((A.tmod B : Int) : ℚ) * (radixInt rad : ℚ) ^ s = _
    rw [Int.tmod_def, ha', hb']
    push_cast
    ring
  · simp only [fp_eq, hA, hB, decide_eq_true_eq]
    rw [ha', hb', mul_eq_mul_right_iff]
    simp [hzne, Int.cast_inj]
  · simp only [fp_ne, hA, hB, decide_eq_true_eq]
    rw [ha', hb', mul_eq_mul_right_iff]
    simp [hzne, Int.cast_inj]
  · simp only [fp_lt, hA, hB, decide_eq_true_eq]
    rw [ha', hb', mul_lt_mul_right hzpos, Int.cast_lt]
  · simp only [fp_le, hA, hB, decide_eq_true_eq]
    rw [ha', hb', mul_le_mul_right hzpos, Int.cast_le]
  · simp only [fp_gt, hA, hB, decide_eq_true_eq]
    rw [ha', hb', mul_lt_mul_right hzpos, Int.cast_lt]
  · simp only [fp_ge, hA, hB, decide_eq_true_eq]
    rw [ha', hb', mul_le_mul_right hzpos, Int.cast_le]

/-- C5 (witness): `{150, -2} + {25, -1}` at `w = 32`, base 10: the sum
carries scale `-2` and denotes `1.5 + 2.5 = 4`. -/
theorem c5_rescale_then_operate_witness :
    (fp_add 32 .BASE_10 ⟨150, -2⟩ ⟨25, -1⟩).scale = min (-2 : Int) (-1) ∧
    represented_value .BASE_10 (fp_add 32 .BASE_10 ⟨150, -2⟩ ⟨25, -1⟩) =
      represented_value .BASE_10 ⟨150, -2⟩ +
        represented_value .BASE_10 ⟨25, -1⟩ :=
  (c5_rescale_then_operate 32 .BASE_10 ⟨150, -2⟩ ⟨25, -1⟩ (by norm_num)
    (by decide) (by decide) (by decide) (by decide) (by decide) (by decide)).1

end Numeric

namespace Numeric

/-- A natural number below `10^k` renders in at most `k` digits. -/
theorem natDigitsAux_length_le (fuel n k : Nat) (hk : 1 ≤ k)
    (hn : n < 10 ^ k) : (natDigitsAux fuel n).length ≤ k := by
  induction fuel generalizing n k with
  | zero => simp [natDigitsAux]
  | succ f ih =>
    unfold natDigitsAux
    by_cases h10 : n < 10
    · rw [if_pos h10]
      simpa using hk
    · rw [if_neg h10]
      have hk2 : 2 ≤ k := by
        by_contra hcon
        have hk1 : k = 1 := by omega
        subst hk1
        simp at hn
        omega
      have hdiv : n / 10 < 10 ^ (k - 1) := by
        rw [Nat.div_lt_iff_lt_mul (by norm_num)]
        calc n < 10 ^ k := hn
        _ = 10 ^ (k - 1) * 10 := by rw [← pow_succ]; congr 1; omega
      have := ih (n / 10) (k - 1) (by omega) hdiv
      simp only [List.length_append, List.length_cons, List.length_nil]
      omega

/-- C3: for a raw base-10 state `{coefficient c, scale s}` the formatter
emits, when `s < 0`, a minus sign iff `c < 0`, then the rendering of
`|c| / 10^(-s)`, a point, and the rendering of `|c| mod 10^(-s)`
left-padded with zeros to width `-s` (the padded block has length exactly
`-s`); when `s ≥ 0`, the rendering of `c` followed by `s` zeros.  In
particular `{1001, -3}` renders `"1.001"`, `{-5, -2}` renders `"-0.05"`,
and `{7, 2}` renders `"700"`. -/
theorem c3_to_string_layout (c s : Int) :
    (s < 0 →
      to_string_fp ⟨c, s⟩ =
        (if c < 0 then ['-'] else []) ++
          int_to_string ((|c|).tdiv (10 ^ (-s).toNat)) ++ ['.'] ++
          (List.replicate
              ((-s).toNat -
                (int_to_string ((|c|).tmod (10 ^ (-s).toNat))).length) '0' ++
            int_to_string ((|c|).tmod (10 ^ (-s).toNat))) ∧
      (List.replicate
          ((-s).toNat -
            (int_to_string ((|c|).tmod (10 ^ (-s).toNat))).length) '0' ++
        int_to_string ((|c|).tmod (10 ^ (-s).toNat))).length = (-s).toNat) ∧
    (0 ≤ s →
      to_string_fp ⟨c, s⟩ = int_to_string c ++ List.replicate s.toNat '0') ∧
    to_string_fp ⟨1001, -3⟩ = ['1', '.', '0', '0', '1'] ∧
    to_string_fp ⟨-5, -2⟩ = ['-', '0', '.', '0', '5'] ∧
    to_string_fp ⟨7, 2⟩ = ['7', '0', '0'] := by
  have h45 : Char.ofNat 45 = '-' := by decide
  have h46 : Char.ofNat 46 = '.' := by decide
  have h48 : Char.ofNat 48 = '0' := by decide
  refine ⟨fun hneg => ?_, fun hnn => ?_, by decide, by decide, by decide⟩
  · have hk1 : 1 ≤ (-s).toNat := by omega
    have hn0 : (0 : Int) < 10 ^ (-s).toNat := by positivity
    have hf0 : 0 ≤ (|c|).tmod (10 ^ (-s).toNat) :=
      Int.tmod_nonneg _ (abs_nonneg c)
    have hflt : (|c|).tmod (10 ^ (-s).toNat) < 10 ^ (-s).toNat :=
      Int.tmod_lt_of_pos _ hn0
    have hlen : (int_to_string ((|c|).tmod (10 ^ (-s).toNat))).length ≤
        (-s).toNat := by
      unfold int_to_string
      rw [if_neg (by omega)]
      unfold natDigits
      apply natDigitsAux_length_le _ _ _ hk1
      have hcast : (((|c|).tmod (10 ^ (-s).toNat)).natAbs : Int) <
          ((10 ^ (-s).toNat : Nat) : Int) := by
        rw [Int.natAbs_of_nonneg hf0]
        push_cast
        exact hflt
      exact_mod_cast hcast
    constructor
    · unfold to_string_fp
      rw [if_pos (by exact hneg)]
      simp only [int_abs, exp10_int, h45, h46, h48]
      have hz : (max 0 ((-s) -
          ((int_to_string ((|c|).tmod (10 ^ (-s).toNat))).length : Int))).toNat =
          (-s).toNat -
            (int_to_string ((|c|).tmod (10 ^ (-s).toNat))).length := by
        omega
      rw [hz]
      simp [List.append_assoc]
    · rw [List.length_append, List.length_replicate]
      omega
  · unfold to_string_fp
    rw [if_neg (by exact not_lt.mpr hnn)]

/-- C3 (witness): the negative-scale branch at the raw state
`{-5, -2}`. -/
theorem c3_to_string_layout_witness :
    to_string_fp ⟨-5, -2⟩ =
      (if (-5 : Int) < 0 then ['-'] else []) ++
        int_to_string ((|(-5 : Int)|).tdiv (10 ^ (-(-2 : Int)).toNat)) ++ ['.'] ++
        (List.replicate
            ((-(-2 : Int)).toNat -
              (int_to_string
                ((|(-5 : Int)|).tmod (10 ^ (-(-2 : Int)).toNat))).length) '0' ++
          int_to_string ((|(-5 : Int)|).tmod (10 ^ (-(-2 : Int)).toNat))) :=
  ((c3_to_string_layout (-5) (-2)).1 (by norm_num)).1

end Numeric

namespace Numeric

/-- Truncated division against an upper bound: for a nonnegative bound
`A` and positive divisor `c`, `A.tdiv c < lhs ↔ A < lhs * c`. -/
theorem tdiv_lt_iff_mul {A lhs c : Int} (hA : 0 ≤ A) (hc : 0 < c) :
    A.tdiv c < lhs ↔ A < lhs * c := by
  rw [Int.tdiv_eq_ediv hA hc.le]
  constructor
  · intro h
    by_contra hcon
    push_neg at hcon
    have h2 := (Int.le_ediv_iff_mul_le hc).mpr hcon
    linarith
  · intro h
    by_contra hcon
    push_neg at hcon
    have h2 := (Int.le_ediv_iff_mul_le hc).mp hcon
    linarith

/-- Truncated division against a lower bound: for a nonnegative `A` and
positive divisor `c`, `lhs < (-A).tdiv c ↔ lhs * c < -A`. -/
theorem lt_neg_tdiv_iff_mul {A lhs c : Int} (hA : 0 ≤ A) (hc : 0 < c) :
    lhs < (-A).tdiv c ↔ lhs * c < -A := by
  rw [Int.neg_tdiv, Int.tdiv_eq_ediv hA hc.le]
  constructor
  · intro h
    by_contra hcon
    push_neg at hcon
    have h2 : (-lhs) * c ≤ A := by rw [neg_mul]; linarith
    have h3 := (Int.le_ediv_iff_mul_le hc).mpr h2
    linarith
  · intro h
    by_contra hcon
    push_neg at hcon
    have h2 : -lhs ≤ A / c := by linarith
    have h3 := (Int.le_ediv_iff_mul_le hc).mp h2
    rw [neg_mul] at h3
    linarith

/-- C6: for representation-range operands, each overflow predicate is
true exactly when the unbounded-integer result of the corresponding
operation leaves `[MIN_R, MAX_R]`; division overflows only at
`MIN_R / -1`, with `rhs = 0` excluded as a precondition. -/
theorem c6_overflow_predicates_sound (w : Nat) (lhs rhs : Int) (hw : 1 ≤ w)
    (hl : inRange w lhs) (hr : inRange w rhs) :
    (addition_overflow w lhs rhs = true ↔
      lhs + rhs < intMin w ∨ intMax w < lhs + rhs) ∧
    (subtraction_overflow w lhs rhs = true ↔
      lhs - rhs < intMin w ∨ intMax w < lhs - rhs) ∧
    (multiplication_overflow w lhs rhs = true ↔
      lhs * rhs < intMin w ∨ intMax w < lhs * rhs) ∧
    (rhs ≠ 0 →
      (division_overflow w lhs rhs = true ↔
        lhs.tdiv rhs < intMin w ∨ intMax w < lhs.tdiv rhs)) := by
  obtain ⟨hl1, hl2⟩ := hl
  obtain ⟨hr1, hr2⟩ := hr
  unfold addition_overflow subtraction_overflow multiplication_overflow
    division_overflow intMin intMax
  set M := (2 : Int) ^ (w - 1) with hM
  have hM0 : 0 < M := by positivity
  refine ⟨?_, ?_, ?_, ?_⟩
  · by_cases h : 0 < rhs
    · rw [if_pos h]; simp only [decide_eq_true_eq]; omega
    · rw [if_neg h]; simp only [decide_eq_true_eq]; omega
  · by_cases h : 0 < rhs
    · rw [if_pos h]; simp only [decide_eq_true_eq]; omega
    · rw [if_neg h]; simp only [decide_eq_true_eq]; omega
  · by_cases h : 0 < rhs
    · rw [if_pos h]
      simp only [Bool.or_eq_true, decide_eq_true_eq]
      have e1 : (M - 1).tdiv rhs < lhs ↔ M - 1 < lhs * rhs :=
        tdiv_lt_iff_mul (by omega) h
      have e2 : lhs < (-M).tdiv rhs ↔ lhs * rhs < -M :=
        lt_neg_tdiv_iff_mul (by omega) h
      rw [e1, e2]
      tauto
    · by_cases h2 : rhs < -1
      · rw [if_neg h, if_pos h2]
        simp only [Bool.or_eq_true, decide_eq_true_eq]
        have hrp : (0 : Int) < -rhs := by omega
        have e1 : (-M).tdiv rhs < lhs ↔ lhs * rhs < -M := by
          have d1 : (-M).tdiv rhs = M.tdiv (-rhs) := by
            rw [← Int.neg_tdiv_neg M (-rhs), neg_neg]
          rw [d1, tdiv_lt_iff_mul (by omega) hrp, mul_neg]
          constructor <;> intro hh <;> linarith
        have e2 : lhs < (M - 1).tdiv rhs ↔ M - 1 < lhs * rhs := by
          have d2 : (M - 1).tdiv rhs = (-(M - 1)).tdiv (-rhs) :=
            (Int.neg_tdiv_neg _ _).symm
          rw [d2, lt_neg_tdiv_iff_mul (by omega) hrp, mul_neg]
          constructor <;> intro hh <;> linarith
        rw [e1, e2]
      · rw [if_neg h, if_neg h2]
        simp only [decide_eq_true_eq]
        have hcase : rhs = 0 ∨ rhs = -1 := by omega
        rcases hcase with h0 | hm1
        · subst h0
          rw [mul_zero]
          omega
        · subst hm1
          rw [mul_neg_one]
          omega
  · intro hrz
    simp only [decide_eq_true_eq]
    constructor
    · rintro ⟨rfl, rfl⟩
      rw [Int.tdiv_neg, Int.tdiv_one, neg_neg]
      omega
    · intro hout
      have habs : (lhs.tdiv rhs).natAbs = lhs.natAbs / rhs.natAbs :=
        Int.natAbs_tdiv lhs rhs
      have hle : (lhs.tdiv rhs).natAbs ≤ lhs.natAbs := by
        rw [habs]; exact Nat.div_le_self _ _
      have hq : lhs.tdiv rhs = M := by omega
      have hlhs : lhs = -M := by omega
      subst hlhs
      refine ⟨rfl, ?_⟩
      rcases lt_trichotomy rhs 0 with hneg | hz | hpos
      · by_contra hne
        have hr2 : rhs ≤ -2 := by omega
        have hdd : (-M).tdiv rhs = M.tdiv (-rhs) := by
          rw [← Int.neg_tdiv_neg M (-rhs), neg_neg]
        have hsmall : M.tdiv (-rhs) < M := by
          rw [Int.tdiv_eq_ediv (by omega) (by omega)]
          rw [Int.ediv_lt_iff_lt_mul (by omega)]
          nlinarith
        omega
      · exact absurd hz hrz
      · exfalso
        have hnn : 0 ≤ M.tdiv rhs := Int.tdiv_nonneg (by omega) (by omega)
        have hqq : (-M).tdiv rhs = -(M.tdiv rhs) := Int.neg_tdiv M rhs
        omega

/-- C6 (witness): at `w = 32`, `lhs = 2000000000`, `rhs = 2000000000`
addition overflows (the sum exceeds `2^31 - 1`) and multiplication
overflows, while subtraction and `lhs / rhs` do not. -/
theorem c6_overflow_predicates_sound_witness :
    (addition_overflow 32 2000000000 2000000000 = true ↔
      (2000000000 : Int) + 2000000000 < intMin 32 ∨
        intMax 32 < (2000000000 : Int) + 2000000000) ∧
    ((2000000000 : Int) ≠ 0 →
      (division_overflow 32 2000000000 2000000000 = true ↔
        (2000000000 : Int).tdiv 2000000000 < intMin 32 ∨
          intMax 32 < (2000000000 : Int).tdiv 2000000000)) :=
  ⟨(c6_overflow_predicates_sound 32 2000000000 2000000000 (by norm_num)
      (by decide) (by decide)).1,
   (c6_overflow_predicates_sound 32 2000000000 2000000000 (by norm_num)
      (by decide) (by decide)).2.2.2⟩

end Numeric
